import Mathlib

/-!
Verification of `lunar_tools/fontrender.py` (`add_text_to_image`).

The function renders one line of text onto an image.  We embed it shallowly:

* Python ints become `ℤ`, Python floats (width fractions, measured text
  widths, positions) become `ℚ`.
* An image is its size plus a pixel map (`Img`); a numpy array that can be
  fed to `Image.fromarray` is likewise a size plus a pixel map (`NdArray`).
* The external environment is passed in explicitly: the host OS name
  (`platform.system()`), the file-existence oracle (`os.path.exists`), a
  text-measurement function `tl` standing for
  `draw.textlength(text, font=ImageFont.truetype(path, size))` (a pure
  function of font path, text and font size), and a draw primitive `drawT`
  standing for `draw.text((x, y), text, font=font, fill=color)`.
* The `while` loop at lines 83-90 is embedded with explicit fuel
  (`fitLoop`); a `none` result means the fuel ran out, so divergence of the
  Python loop is `∀ fuel, fitLoop … fuel … = none`.
* The three `raise ValueError` sites and the `assert os.path.exists`
  (which raises `AssertionError`) are the four configuration errors of the
  spec; they become the constructors of `RenderError`.
-/

/-- An RGB color triple. -/
abbrev Color := ℕ × ℕ × ℕ

/-- A PIL image: its size together with its pixel contents. -/
structure Img where
  width : ℕ
  height : ℕ
  px : ℤ → ℤ → Color

/-- A numpy pixel buffer accepted by `Image.fromarray`. -/
structure NdArray where
  width : ℕ
  height : ℕ
  px : ℤ → ℤ → Color

/-- `Image.fromarray`: wraps a pixel buffer as an image, keeping size and
pixels. -/
def imageFromArray (a : NdArray) : Img :=
  { width := a.width, height := a.height, px := a.px }

/-- The possible runtime types of `img_input`: a `(width, height)` tuple, a
numpy array, a PIL image, or anything else. -/
inductive ImgInput where
  | tup (w h : ℕ)
  | arr (a : NdArray)
  | img (i : Img)
  | other

/-- The configuration errors `add_text_to_image` can raise: the three
`raise ValueError` sites (lines 52, 75, 101) and the failed
`assert os.path.exists(font_path)` (line 77). -/
inductive RenderError where
  | badInput
  | badOS
  | missingFont (path : String)
  | badAlign
deriving DecidableEq

/-- Lines 45-52: dispatch on the type of `img_input`.  A tuple creates a
fresh white RGB canvas, an array goes through `Image.fromarray`, an image is
used as is, anything else raises `ValueError`. -/
def resolveImage : ImgInput → Except RenderError Img
  | .tup w h => .ok { width := w, height := h, px := fun _ _ => (255, 255, 255) }
  | .arr a => .ok (imageFromArray a)
  | .img i => .ok i
  | .other => .error .badInput

/-- Lines 62-66: the filename suffix chosen from `font_type`. -/
def fontExt (font_type : Option String) : String :=
  if font_type = some "italic" then "i.ttf"
  else if font_type = some "bold" then "bd.ttf"
  else ".ttf"

/-- The OS-specific base directory of lines 68-73, `none` for an
unrecognized OS name. -/
def fontBaseDir (os_name : String) : Option String :=
  if os_name = "Darwin" then some "/System/Library/Fonts/"
  else if os_name = "Linux" then some "/usr/share/fonts/truetype/"
  else if os_name = "Windows" then some "C:\\Windows\\Fonts\\"
  else none

/-- Lines 68-75: the full font path, or the `ValueError` for an unsupported
OS. -/
def fontPath (os_name font_name ext : String) : Except RenderError String :=
  match fontBaseDir os_name with
  | some dir => .ok (dir ++ font_name ++ ext)
  | none => .error .badOS

/-- Truncation toward zero, the behavior of Python `int()` on a float. -/
def ratTrunc (q : ℚ) : ℤ :=
  if 0 ≤ q then ⌊q⌋ else ⌈q⌉

/-- Lines 94-101: the horizontal offset from the alignment.  Python
`(width - text_width) // 2` is float floor division, hence the floor. -/
def computeX (align : String) (width : ℤ) (text_width : ℚ) :
    Except RenderError ℚ :=
  if align = "left" then .ok 0
  else if align = "center" then .ok ((⌊((width : ℚ) - text_width) / 2⌋ : ℤ) : ℚ)
  else if align = "right" then .ok ((width : ℚ) - text_width)
  else .error .badAlign

/-- The `while` loop of lines 83-90, with explicit fuel.  The loop state is
`font_size`; the measured width at the top of each iteration is
`tl font_size`, exactly as in the source where `text_width` is re-measured
after every resize.  `some fs` is normal exit with final size `fs`; `none`
means the fuel ran out. -/
def fitLoop (tl : ℤ → ℚ) (smin smax : ℚ) (height : ℤ) :
    ℕ → ℤ → Option ℤ
  | 0, _ => none
  | fuel + 1, fs =>
    if (tl fs < smin ∨ smax < tl fs) ∧ fs < height then
      fitLoop tl smin smax height fuel
        (if tl fs < smin then fs + 1 else fs - 1)
    else some fs

/-- Everything observable about a completed call: the returned image, the
fitted font size, the final measured text width, and the draw position. -/
structure RenderOut where
  image : Img
  font_size : ℤ
  text_width : ℚ
  x : ℚ
  y : ℤ

/-- The whole of `add_text_to_image`.  `os_name`, `pathE`, `tl` and `drawT`
model the external environment (see the header comment); `fuel` bounds the
observation of the `while` loop.  The result is `none` when the loop has
not finished within `fuel` iterations, `some (.error e)` when the call
raises, and `some (.ok out)` on normal return. -/
def render (os_name : String) (pathE : String → Bool)
    (tl : String → String → ℤ → ℚ)
    (drawT : Img → ℚ → ℤ → String → String → ℤ → Color → Img)
    (fuel : ℕ) (img_input : ImgInput) (text : String) (align : String)
    (y_pos : ℚ) (font_name : String) (font_size : ℤ)
    (min_width max_width : ℚ) (font_color : Color)
    (font_type : Option String) :
    Option (Except RenderError RenderOut) :=
  match resolveImage img_input with
  | .error e => some (.error e)
  | .ok image =>
    match fontPath os_name font_name (fontExt font_type) with
    | .error e => some (.error e)
    | .ok path =>
      if pathE path then
        match fitLoop (tl path text) (min_width * (image.width : ℚ))
            (max_width * (image.width : ℚ)) (image.height : ℤ)
            fuel font_size with
        | none => none
        | some fs =>
          match computeX align (image.width : ℤ) (tl path text fs) with
          | .error e => some (.error e)
          | .ok x =>
            some (.ok { image := drawT image x
                          (ratTrunc (y_pos * (((image.height : ℤ) - fs : ℤ) : ℚ)))
                          text path fs font_color,
                        font_size := fs, text_width := tl path text fs,
                        x := x,
                        y := ratTrunc (y_pos * (((image.height : ℤ) - fs : ℤ) : ℚ)) })
      else some (.error (.missingFont path))

/-- Classifies a run outcome, forgetting the returned data: `none` for a
run that did not finish, `some (some e)` for a raised error, `some none`
for a normal return. -/
def renderStatus (o : Option (Except RenderError RenderOut)) :
    Option (Option RenderError) :=
  match o with
  | none => none
  | some (.error e) => some (some e)
  | some (.ok _) => some none

/-- Whether `align` is one of the three recognized values. -/
def alignValid (align : String) : Bool :=
  align = "left" || align = "center" || align = "right"

/-! ### Concrete environments used in witnesses and counterexamples -/

/-- A text-measurement function whose result is the font size itself
(monotone, nonnegative at nonnegative sizes, a perfectly plausible
metric). -/
def tlId : ℤ → ℚ := fun s => (s : ℚ)

/-- The same measurement, ignoring font path and text. -/
def tlLin : String → String → ℤ → ℚ := fun _ _ s => (s : ℚ)

/-- A file-existence oracle under which every font file exists. -/
def allExist : String → Bool := fun _ => true

/-- A draw primitive that leaves the image untouched. -/
def drawNop : Img → ℚ → ℤ → String → String → ℤ → Color → Img :=
  fun im _ _ _ _ _ _ => im

/-- A draw primitive that paints the single pixel `(0, 0)`. -/
def drawDot : Img → ℚ → ℤ → String → String → ℤ → Color → Img :=
  fun im _ _ _ _ _ c =>
    { width := im.width, height := im.height,
      px := fun a b => if a = 0 ∧ b = 0 then c else im.px a b }

/-- The bounding box of `drawDot`: just the pixel `(0, 0)`. -/
def dotBox : ℚ → ℤ → String → String → ℤ → ℤ → ℤ → Prop :=
  fun _ _ _ _ _ a b => a = 0 ∧ b = 0

/-- A concrete 10 by 10 image with all pixels `(7, 7, 7)`. -/
def imC : Img := { width := 10, height := 10, px := fun _ _ => (7, 7, 7) }

/-- A measurement that is constantly `5`, i.e. a text whose rendered width
never shrinks below five pixels no matter how small the font gets. -/
def tlWide : ℤ → ℚ := fun _ => 5

/-! ### Helper lemmas about the pieces -/

/-- Exit analysis of the fitting loop: a normal exit means the negation of
the `while` condition at the final state. -/
theorem fitLoop_post (tl : ℤ → ℚ) (smin smax : ℚ) (height : ℤ) :
    ∀ (fuel : ℕ) (fs r : ℤ), fitLoop tl smin smax height fuel fs = some r →
      (smin ≤ tl r ∧ tl r ≤ smax) ∨ height ≤ r := by
  intro fuel
  induction fuel with
  | zero => intro fs r h; simp [fitLoop] at h
  | succ n ih =>
    intro fs r h
    rw [fitLoop] at h
    split at h
    · exact ih _ _ h
    · next hc =>
      have hr : fs = r := by simpa using h
      subst hr
      push_neg at hc
      by_cases hw : tl fs < smin ∨ smax < tl fs
      · exact Or.inr (hc hw)
      · push_neg at hw
        exact Or.inl hw

/-- One iteration of the loop in the too-wide case: the font size is
decremented by one, with no lower bound or clamp of any kind. -/
theorem fitLoop_step_down (tl : ℤ → ℚ) (smin smax : ℚ) (height fs : ℤ)
    (n : ℕ) (h1 : ¬ tl fs < smin) (h2 : smax < tl fs) (h3 : fs < height) :
    fitLoop tl smin smax height (n + 1) fs
      = fitLoop tl smin smax height n (fs - 1) := by
  rw [fitLoop, if_pos ⟨Or.inr h2, h3⟩, if_neg h1]

/-- One iteration of the loop in the too-narrow case: the font size is
incremented by one. -/
theorem fitLoop_step_up (tl : ℤ → ℚ) (smin smax : ℚ) (height fs : ℤ)
    (n : ℕ) (h1 : tl fs < smin) (h3 : fs < height) :
    fitLoop tl smin smax height (n + 1) fs
      = fitLoop tl smin smax height n (fs + 1) := by
  rw [fitLoop, if_pos ⟨Or.inl h1, h3⟩, if_pos h1]

/-- When the measured width can never exceed `smax`, the loop only ever
increments, and the `font_size < height` conjunct bounds it: it terminates
within `(height - fs).toNat + 1` iterations. -/
theorem fitLoop_term_of_never_wide (tl : ℤ → ℚ) (smin smax : ℚ) (height : ℤ)
    (hmax : ∀ s, tl s ≤ smax) :
    ∀ (n : ℕ) (fs : ℤ), (height - fs).toNat < n →
      ∃ r, fitLoop tl smin smax height n fs = some r := by
  intro n
  induction n with
  | zero => intro fs h; omega
  | succ m ih =>
    intro fs h
    rw [fitLoop]
    split
    · next hc =>
      obtain ⟨hw, hfs⟩ := hc
      have hnw : tl fs < smin := by
        rcases hw with h1 | h2
        · exact h1
        · exact absurd h2 (not_lt.mpr (hmax fs))
      rw [if_pos hnw]
      exact ih (fs + 1) (by omega)
    · exact ⟨fs, rfl⟩

/-- With the identity metric and the degenerate window
`smin = smax = 1/2`, the loop started at `0` oscillates between sizes `0`
and `1` forever: measured width `0` is too narrow, measured width `1` is
too wide, and both sizes stay below the height bound `100`. -/
theorem fitLoop_osc (n : ℕ) :
    fitLoop tlId (1/2) (1/2) 100 n 0 = none
      ∧ fitLoop tlId (1/2) (1/2) 100 n 1 = none := by
  induction n with
  | zero => exact ⟨rfl, rfl⟩
  | succ m ih =>
    constructor
    · rw [fitLoop_step_up tlId (1/2) (1/2) 100 0 m (by norm_num [tlId])
        (by norm_num)]
      exact ih.2
    · rw [fitLoop_step_down tlId (1/2) (1/2) 100 1 m (by norm_num [tlId])
        (by norm_num [tlId]) (by norm_num)]
      exact ih.1

/-- `resolveImage` fails only on the catch-all branch, and then with
`badInput`. -/
theorem resolveImage_error (i : ImgInput) (e : RenderError)
    (h : resolveImage i = .error e) : i = .other ∧ e = .badInput := by
  cases i <;> simp_all [resolveImage]

/-- `fontPath` fails only with `badOS`, exactly when the OS has no base
directory. -/
theorem fontPath_error (os_name font_name ext : String) (e : RenderError)
    (h : fontPath os_name font_name ext = .error e) :
    e = .badOS ∧ fontBaseDir os_name = none := by
  unfold fontPath at h
  cases hb : fontBaseDir os_name <;> rw [hb] at h <;> simp_all

/-- A successful `computeX` means the alignment was one of the three
recognized values. -/
theorem computeX_ok_alignValid (align : String) (width : ℤ) (tw x : ℚ)
    (h : computeX align width tw = .ok x) : alignValid align = true := by
  unfold computeX at h
  unfold alignValid
  split at h
  · simp_all
  · split at h
    · simp_all
    · split at h
      · simp_all
      · simp_all

/-- A failing `computeX` means the alignment was unrecognized, and the
error is `badAlign`. -/
theorem computeX_error (align : String) (width : ℤ) (tw : ℚ)
    (e : RenderError) (h : computeX align width tw = .error e) :
    alignValid align = false ∧ e = .badAlign := by
  unfold computeX at h
  unfold alignValid
  split at h
  · simp_all
  · split at h
    · simp_all
    · split at h
      · simp_all
      · simp_all

/-- An unrecognized alignment makes `computeX` fail with `badAlign`. -/
theorem computeX_of_invalid (align : String) (width : ℤ) (tw : ℚ)
    (h : alignValid align = false) :
    computeX align width tw = .error .badAlign := by
  unfold alignValid at h
  unfold computeX
  simp only [Bool.or_eq_false_iff, decide_eq_false_iff_not] at h
  rw [if_neg h.1.1, if_neg h.1.2, if_neg h.2]

/-- Inversion of a normal return of `render`: it pins down every stage of
the pipeline and the exact shape of the returned record. -/
theorem render_ok_inv (os_name : String) (pathE : String → Bool)
    (tl : String → String → ℤ → ℚ)
    (drawT : Img → ℚ → ℤ → String → String → ℤ → Color → Img)
    (fuel : ℕ) (img_input : ImgInput) (text align : String) (y_pos : ℚ)
    (font_name : String) (font_size : ℤ) (min_width max_width : ℚ)
    (font_color : Color) (font_type : Option String) (out : RenderOut)
    (h : render os_name pathE tl drawT fuel img_input text align y_pos
      font_name font_size min_width max_width font_color font_type
      = some (.ok out)) :
    ∃ im path fs x,
      resolveImage img_input = .ok im
      ∧ fontPath os_name font_name (fontExt font_type) = .ok path
      ∧ pathE path = true
      ∧ fitLoop (tl path text) (min_width * (im.width : ℚ))
          (max_width * (im.width : ℚ)) (im.height : ℤ) fuel font_size
          = some fs
      ∧ computeX align (im.width : ℤ) (tl path text fs) = .ok x
      ∧ out = { image := drawT im x
                  (ratTrunc (y_pos * (((im.height : ℤ) - fs : ℤ) : ℚ)))
                  text path fs font_color,
                font_size := fs, text_width := tl path text fs, x := x,
                y := ratTrunc (y_pos * (((im.height : ℤ) - fs : ℤ) : ℚ)) } := by
  unfold render at h
  split at h
  · simp at h
  next im hri =>
    split at h
    · simp at h
    next path hfp =>
      split at h
      · next hpe =>
        split at h
        · simp at h
        next fs hfl =>
          split at h
          · simp at h
          next x hcx =>
            exact ⟨im, path, fs, x, hri, hfp, hpe, hfl, hcx, by
              simpa using h.symm⟩
      · simp at h

/-- The outcome classification of a call is computed entirely from the
image source, the OS, the file oracle, the measurement function, the fuel
and the alignment; in particular neither `y_pos`, nor the color, nor the
draw primitive appear on the right-hand side. -/
theorem renderStatus_eq (os_name : String) (pathE : String → Bool)
    (tl : String → String → ℤ → ℚ)
    (drawT : Img → ℚ → ℤ → String → String → ℤ → Color → Img)
    (fuel : ℕ) (img_input : ImgInput) (text align : String) (y_pos : ℚ)
    (font_name : String) (font_size : ℤ) (min_width max_width : ℚ)
    (font_color : Color) (font_type : Option String) :
    renderStatus (render os_name pathE tl drawT fuel img_input text align
        y_pos font_name font_size min_width max_width font_color font_type)
      = match resolveImage img_input with
        | .error e => some (some e)
        | .ok im =>
          match fontPath os_name font_name (fontExt font_type) with
          | .error e => some (some e)
          | .ok path =>
            if pathE path then
              match fitLoop (tl path text) (min_width * (im.width : ℚ))
                  (max_width * (im.width : ℚ)) (im.height : ℤ)
                  fuel font_size with
              | none => none
              | some fs =>
                match computeX align (im.width : ℤ) (tl path text fs) with
                | .error e => some (some e)
                | .ok _ => some none
            else some (some (.missingFont path)) := by
  rcases hri : resolveImage img_input with e | im
  · simp [render, renderStatus, hri]
  rcases hfp : fontPath os_name font_name (fontExt font_type) with e | path
  · simp [render, renderStatus, hri, hfp]
  by_cases hpe : pathE path
  · rcases hfl : fitLoop (tl path text) (min_width * (im.width : ℚ))
        (max_width * (im.width : ℚ)) (im.height : ℤ) fuel font_size with
      _ | fs
    · simp [render, renderStatus, hri, hfp, hpe, hfl]
    · rcases hcx : computeX align (im.width : ℤ) (tl path text fs) with e | x
      · simp [render, renderStatus, hri, hfp, hpe, hfl, hcx]
      · simp [render, renderStatus, hri, hfp, hpe, hfl, hcx]
  · simp [render, renderStatus, hri, hfp, hpe]

/-! ### Claim C1 -/

/-- Claim C1 is false as stated: with the identity measurement (a plausible
metric), the degenerate width window `min_width·W = max_width·W = 1/2`,
height `100`, and the positive initial size `1`, the loop never exits, for
any amount of fuel.  Size `1` measures too wide (`1 > 1/2`) and decrements
to `0`, size `0` measures too narrow (`0 < 1/2`) and increments back to
`1`, forever; both sizes stay below the height bound. -/
theorem C1_counterexample :
    ¬ ∃ fuel r, fitLoop tlId (1/2) (1/2) 100 fuel 1 = some r := by
  rintro ⟨fuel, r, h⟩
  rw [(fitLoop_osc fuel).2] at h
  exact Option.noConfusion h

/-- Claim C1 (amended): the bound `font_size < image_height` limits only
the increment direction of the search.  When the measured width never
exceeds the scaled maximum (so the too-wide branch is never taken), the
loop terminates within `(height - font_size).toNat + 1` iterations; with a
too-wide branch reachable it may oscillate forever or decrement without
lower bound. -/
theorem C1_loop_termination (tl : ℤ → ℚ) (smin smax : ℚ) (height fs0 : ℤ)
    (hmax : ∀ s, tl s ≤ smax) :
    ∃ r, fitLoop tl smin smax height ((height - fs0).toNat + 1) fs0
      = some r :=
  fitLoop_term_of_never_wide tl smin smax height hmax _ fs0 (by omega)

/-- Concrete instance of the amended claim C1: a measurement that is
constantly `0` with `smax = 0` terminates from size `3` under height `5`. -/
theorem C1_witness :
    ∃ r, fitLoop (fun _ => (0 : ℚ)) 0 0 5 (((5 : ℤ) - 3).toNat + 1) 3
      = some r :=
  C1_loop_termination (fun _ => (0 : ℚ)) 0 0 5 3 (fun _ => le_refl 0)

/-! ### Claim C2 -/

/-- Claim C2 is false as stated: with an invalid alignment but a fitting
loop that oscillates forever (the C1 situation), the call never reaches
the alignment check, so no configuration error is ever raised — the run
simply never finishes, for any amount of fuel. -/
theorem C2_counterexample :
    alignValid "diagonal" = false
      ∧ ∀ fuel, render "Linux" allExist tlLin drawNop fuel
          (ImgInput.tup 1 100) "t" "diagonal" 0 "Arial" 0 (1/2) (1/2)
          (0, 0, 0) none = none := by
  refine ⟨by decide, fun fuel => ?_⟩
  have hri : resolveImage (ImgInput.tup 1 100)
      = Except.ok { width := 1, height := 100,
                    px := fun _ _ => (255, 255, 255) } := rfl
  have hfp : fontPath "Linux" "Arial" (fontExt none)
      = Except.ok "/usr/share/fonts/truetype/Arial.ttf" := rfl
  have h1 : tlLin "/usr/share/fonts/truetype/Arial.ttf" "t" = tlId := rfl
  simp only [render, hri, hfp, allExist, h1]
  have hosc : fitLoop tlId ((1/2 : ℚ) * ((1 : ℕ) : ℚ))
      ((1/2 : ℚ) * ((1 : ℕ) : ℚ)) ((100 : ℕ) : ℤ) fuel 0 = none := by
    convert (fitLoop_osc fuel).1 using 2 <;> norm_num
  rw [hosc]
  simp

/-- Claim C2 (amended): a call raises a configuration error exactly in the
four claimed cases — unrecognized image-source type, unrecognized host OS,
missing font file, invalid alignment — except that the alignment check
runs only after the font-fit loop, so the invalid-alignment error is
raised only when that loop terminates; the other three checks precede the
loop and are surfaced unconditionally.  No recovery is attempted in any
case. -/
theorem C2_error_cases (os_name : String) (pathE : String → Bool)
    (tl : String → String → ℤ → ℚ)
    (drawT : Img → ℚ → ℤ → String → String → ℤ → Color → Img)
    (fuel : ℕ) (img_input : ImgInput) (text align : String) (y_pos : ℚ)
    (font_name : String) (font_size : ℤ) (min_width max_width : ℚ)
    (font_color : Color) (font_type : Option String) :
    (∃ e, render os_name pathE tl drawT fuel img_input text align y_pos
        font_name font_size min_width max_width font_color font_type
        = some (.error e))
      ↔ (resolveImage img_input = .error .badInput
         ∨ (∃ im, resolveImage img_input = .ok im
              ∧ fontPath os_name font_name (fontExt font_type)
                  = .error .badOS)
         ∨ (∃ im p, resolveImage img_input = .ok im
              ∧ fontPath os_name font_name (fontExt font_type) = .ok p
              ∧ pathE p = false)
         ∨ (∃ im p r, resolveImage img_input = .ok im
              ∧ fontPath os_name font_name (fontExt font_type) = .ok p
              ∧ pathE p = true
              ∧ fitLoop (tl p text) (min_width * (im.width : ℚ))
                  (max_width * (im.width : ℚ)) (im.height : ℤ) fuel
                  font_size = some r
              ∧ alignValid align = false)) := by
  rcases hri : resolveImage img_input with e | im
  · obtain ⟨-, he⟩ := resolveImage_error _ _ hri
    subst he
    constructor
    · intro _
      exact Or.inl rfl
    · intro _
      exact ⟨.badInput, by simp [render, hri]⟩
  · rcases hfp : fontPath os_name font_name (fontExt font_type) with e | p
    · obtain ⟨he, -⟩ := fontPath_error _ _ _ _ hfp
      subst he
      constructor
      · intro _
        exact Or.inr (Or.inl ⟨im, rfl, rfl⟩)
      · intro _
        exact ⟨.badOS, by simp [render, hri, hfp]⟩
    · cases hpe : pathE p with
      | false =>
        constructor
        · intro _
          exact Or.inr (Or.inr (Or.inl ⟨im, p, rfl, rfl, hpe⟩))
        · intro _
          exact ⟨.missingFont p, by simp [render, hri, hfp, hpe]⟩
      | true =>
        rcases hfl : fitLoop (tl p text) (min_width * (im.width : ℚ))
            (max_width * (im.width : ℚ)) (im.height : ℤ) fuel font_size with
          _ | r
        · constructor
          · rintro ⟨e, he⟩
            exfalso
            revert he
            simp [render, hri, hfp, hpe, hfl]
          · rintro (h1 | ⟨im2, h2a, h2b⟩ | ⟨im2, p2, h3a, h3b, h3c⟩ |
              ⟨im2, p2, r2, h4a, h4b, h4c, h4d, h4e⟩)
            · exact Except.noConfusion h1
            · exact Except.noConfusion h2b
            · obtain rfl : p2 = p := (Except.ok.inj h3b).symm
              rw [hpe] at h3c
              exact Bool.noConfusion h3c
            · obtain rfl : im2 = im := (Except.ok.inj h4a).symm
              obtain rfl : p2 = p := (Except.ok.inj h4b).symm
              rw [hfl] at h4d
              exact Option.noConfusion h4d
        · rcases hcx : computeX align (im.width : ℤ) (tl p text r) with e | x
          · obtain ⟨hv, he⟩ := computeX_error _ _ _ _ hcx
            subst he
            constructor
            · intro _
              exact Or.inr (Or.inr (Or.inr ⟨im, p, r, rfl, rfl, hpe, hfl, hv⟩))
            · intro _
              exact ⟨.badAlign, by simp [render, hri, hfp, hpe, hfl, hcx]⟩
          · have hv := computeX_ok_alignValid _ _ _ _ hcx
            constructor
            · rintro ⟨e, he⟩
              exfalso
              revert he
              simp [render, hri, hfp, hpe, hfl, hcx]
            · rintro (h1 | ⟨im2, h2a, h2b⟩ | ⟨im2, p2, h3a, h3b, h3c⟩ |
                ⟨im2, p2, r2, h4a, h4b, h4c, h4d, h4e⟩)
              · exact Except.noConfusion h1
              · exact Except.noConfusion h2b
              · obtain rfl : p2 = p := (Except.ok.inj h3b).symm
                rw [hpe] at h3c
                exact Bool.noConfusion h3c
              · rw [hv] at h4e
                exact Bool.noConfusion h4e

/-! ### Claim C3 -/

/-- Claim C3: whenever the font-size search loop terminates and the call
returns, either the final measured text width lies between
`min_width * W` and `max_width * W` (with `W` the image width), or the
final font size is at least the image height. -/
theorem C3_fit_postcondition (os_name : String) (pathE : String → Bool)
    (tl : String → String → ℤ → ℚ)
    (drawT : Img → ℚ → ℤ → String → String → ℤ → Color → Img)
    (fuel : ℕ) (img_input : ImgInput) (text align : String) (y_pos : ℚ)
    (font_name : String) (font_size : ℤ) (min_width max_width : ℚ)
    (font_color : Color) (font_type : Option String) (out : RenderOut)
    (im : Img)
    (h : render os_name pathE tl drawT fuel img_input text align y_pos
      font_name font_size min_width max_width font_color font_type
      = some (.ok out))
    (him : resolveImage img_input = .ok im) :
    (min_width * (im.width : ℚ) ≤ out.text_width
      ∧ out.text_width ≤ max_width * (im.width : ℚ))
    ∨ (im.height : ℤ) ≤ out.font_size := by
  obtain ⟨im2, path, fs, x, hri, hfp, hpe, hfl, hcx, hout⟩ :=
    render_ok_inv _ _ _ _ _ _ _ _ _ _ _ _ _ _ _ _ h
  rw [him] at hri
  obtain rfl : im = im2 := Except.ok.inj hri
  subst hout
  simpa using fitLoop_post (tl path text) (min_width * (im.width : ℚ))
    (max_width * (im.width : ℚ)) (im.height : ℤ) fuel font_size fs hfl

/-- Concrete instance of claim C3: a fitted run on a blank 100 by 50
canvas lands in the width window. -/
theorem C3_witness :
    ∃ out, render "Linux" allExist tlLin drawNop 1 (ImgInput.tup 100 50)
        "t" "left" (1/2) "Arial" 20 0 1 (0, 0, 0) none
        = some (Except.ok out)
      ∧ (((0 : ℚ) * ((100 : ℕ) : ℚ) ≤ out.text_width
            ∧ out.text_width ≤ (1 : ℚ) * ((100 : ℕ) : ℚ))
          ∨ (((50 : ℕ) : ℤ) ≤ out.font_size)) := by
  have hri : resolveImage (ImgInput.tup 100 50)
      = Except.ok { width := 100, height := 50,
                    px := fun _ _ => (255, 255, 255) } := rfl
  have hfp : fontPath "Linux" "Arial" (fontExt none)
      = Except.ok "/usr/share/fonts/truetype/Arial.ttf" := rfl
  have hfit : fitLoop (tlLin "/usr/share/fonts/truetype/Arial.ttf" "t")
      0 100 50 1 20 = some 20 := rfl
  have hout : render "Linux" allExist tlLin drawNop 1
      (ImgInput.tup 100 50) "t" "left" (1/2) "Arial" 20 0 1 (0, 0, 0) none
      = some (Except.ok
          { image := { width := 100, height := 50,
                       px := fun _ _ => (255, 255, 255) },
            font_size := 20, text_width := 20, x := 0, y := 15 }) := by
    simp [render, hri, hfp, allExist, hfit, computeX, tlLin, drawNop,
      ratTrunc]
    norm_num
  refine ⟨_, hout, ?_⟩
  exact C3_fit_postcondition "Linux" allExist tlLin drawNop 1
    (ImgInput.tup 100 50) "t" "left" (1/2) "Arial" 20 0 1 (0, 0, 0) none _
    { width := 100, height := 50, px := fun _ _ => (255, 255, 255) } hout rfl

/-! ### Claim C4 -/

/-- Claim C4: the horizontal offset follows the alignment: `left` gives
`x = 0`; `center` gives `x = (W - text_width) / 2` within rounding (the
floor, from float floor-division); `right` gives `x + text_width = W`. -/
theorem C4_alignment (os_name : String) (pathE : String → Bool)
    (tl : String → String → ℤ → ℚ)
    (drawT : Img → ℚ → ℤ → String → String → ℤ → Color → Img)
    (fuel : ℕ) (img_input : ImgInput) (text align : String) (y_pos : ℚ)
    (font_name : String) (font_size : ℤ) (min_width max_width : ℚ)
    (font_color : Color) (font_type : Option String) (out : RenderOut)
    (im : Img)
    (h : render os_name pathE tl drawT fuel img_input text align y_pos
      font_name font_size min_width max_width font_color font_type
      = some (.ok out))
    (him : resolveImage img_input = .ok im) :
    (align = "left" → out.x = 0)
    ∧ (align = "center" →
        ((im.width : ℚ) - out.text_width) / 2 - 1 < out.x
        ∧ out.x ≤ ((im.width : ℚ) - out.text_width) / 2)
    ∧ (align = "right" → out.x + out.text_width = (im.width : ℚ)) := by
  obtain ⟨im2, path, fs, x, hri, hfp, hpe, hfl, hcx, hout⟩ :=
    render_ok_inv _ _ _ _ _ _ _ _ _ _ _ _ _ _ _ _ h
  rw [him] at hri
  obtain rfl : im = im2 := Except.ok.inj hri
  subst hout
  dsimp only
  refine ⟨?_, ?_, ?_⟩
  · rintro rfl
    unfold computeX at hcx
    rw [if_pos rfl] at hcx
    exact (Except.ok.inj hcx).symm
  · rintro rfl
    unfold computeX at hcx
    rw [if_neg (by decide), if_pos rfl] at hcx
    obtain rfl := (Except.ok.inj hcx).symm
    have hq := Int.lt_floor_add_one
      ((((im.width : ℤ) : ℚ) - tl path text fs) / 2)
    have hq2 := Int.floor_le ((((im.width : ℤ) : ℚ) - tl path text fs) / 2)
    constructor
    · push_cast at hq ⊢
      linarith
    · push_cast at hq2 ⊢
      linarith
  · rintro rfl
    unfold computeX at hcx
    rw [if_neg (by decide), if_neg (by decide), if_pos rfl] at hcx
    obtain rfl := (Except.ok.inj hcx).symm
    push_cast
    ring

/-- Concrete instance of claim C4: a centered run on a blank 100 by 50
canvas, with text width 20, puts the text at the floored midpoint. -/
theorem C4_witness :
    ∃ out, render "Linux" allExist tlLin drawNop 1 (ImgInput.tup 100 50)
        "t" "center" (1/2) "Arial" 20 0 1 (0, 0, 0) none
        = some (Except.ok out)
      ∧ ((((100 : ℕ) : ℚ) - out.text_width) / 2 - 1 < out.x
          ∧ out.x ≤ (((100 : ℕ) : ℚ) - out.text_width) / 2) := by
  have hri : resolveImage (ImgInput.tup 100 50)
      = Except.ok { width := 100, height := 50,
                    px := fun _ _ => (255, 255, 255) } := rfl
  have hfp : fontPath "Linux" "Arial" (fontExt none)
      = Except.ok "/usr/share/fonts/truetype/Arial.ttf" := rfl
  have hfit : fitLoop (tlLin "/usr/share/fonts/truetype/Arial.ttf" "t")
      0 100 50 1 20 = some 20 := rfl
  have hout : render "Linux" allExist tlLin drawNop 1
      (ImgInput.tup 100 50) "t" "center" (1/2) "Arial" 20 0 1 (0, 0, 0) none
      = some (Except.ok
          { image := { width := 100, height := 50,
                       px := fun _ _ => (255, 255, 255) },
            font_size := 20, text_width := 20, x := 40, y := 15 }) := by
    simp [render, hri, hfp, allExist, hfit, computeX, tlLin, drawNop,
      ratTrunc]
    norm_num
  refine ⟨_, hout, ?_⟩
  exact (C4_alignment "Linux" allExist tlLin drawNop 1
    (ImgInput.tup 100 50) "t" "center" (1/2) "Arial" 20 0 1 (0, 0, 0) none _
    { width := 100, height := 50, px := fun _ _ => (255, 255, 255) }
    hout rfl).2.1 rfl

/-! ### Claim C7 -/

/-- Claim C7: the vertical offset of the drawn text is
`y_pos * (image_height - font_size)` truncated to an integer, with the
fitted font size standing in for the text height. -/
theorem C7_vertical_offset (os_name : String) (pathE : String → Bool)
    (tl : String → String → ℤ → ℚ)
    (drawT : Img → ℚ → ℤ → String → String → ℤ → Color → Img)
    (fuel : ℕ) (img_input : ImgInput) (text align : String) (y_pos : ℚ)
    (font_name : String) (font_size : ℤ) (min_width max_width : ℚ)
    (font_color : Color) (font_type : Option String) (out : RenderOut)
    (im : Img)
    (h : render os_name pathE tl drawT fuel img_input text align y_pos
      font_name font_size min_width max_width font_color font_type
      = some (.ok out))
    (him : resolveImage img_input = .ok im) :
    out.y = ratTrunc (y_pos * (((im.height : ℤ) - out.font_size : ℤ) : ℚ)) := by
  obtain ⟨im2, path, fs, x, hri, hfp, hpe, hfl, hcx, hout⟩ :=
    render_ok_inv _ _ _ _ _ _ _ _ _ _ _ _ _ _ _ _ h
  rw [him] at hri
  obtain rfl : im = im2 := Except.ok.inj hri
  subst hout
  rfl

/-- Concrete instance of claim C7: with `y_pos = 3/4` on a 60 by 40 canvas
and fitted size 10, the text lands at `int(3/4 * 30)`. -/
theorem C7_witness :
    ∃ out, render "Linux" allExist tlLin drawNop 1 (ImgInput.tup 60 40)
        "t" "left" (3/4) "Arial" 10 0 1 (0, 0, 0) none
        = some (Except.ok out)
      ∧ out.y = ratTrunc ((3/4) * ((((40 : ℕ) : ℤ) - out.font_size : ℤ) : ℚ)) := by
  have hri : resolveImage (ImgInput.tup 60 40)
      = Except.ok { width := 60, height := 40,
                    px := fun _ _ => (255, 255, 255) } := rfl
  have hfp : fontPath "Linux" "Arial" (fontExt none)
      = Except.ok "/usr/share/fonts/truetype/Arial.ttf" := rfl
  have hfit : fitLoop (tlLin "/usr/share/fonts/truetype/Arial.ttf" "t")
      0 60 40 1 10 = some 10 := rfl
  have hout : render "Linux" allExist tlLin drawNop 1
      (ImgInput.tup 60 40) "t" "left" (3/4) "Arial" 10 0 1 (0, 0, 0) none
      = some (Except.ok
          { image := { width := 60, height := 40,
                       px := fun _ _ => (255, 255, 255) },
            font_size := 10, text_width := 10, x := 0, y := 22 }) := by
    simp [render, hri, hfp, allExist, hfit, computeX, tlLin, drawNop,
      ratTrunc]
    norm_num
  refine ⟨_, hout, ?_⟩
  exact C7_vertical_offset "Linux" allExist tlLin drawNop 1
    (ImgInput.tup 60 40) "t" "left" (3/4) "Arial" 10 0 1 (0, 0, 0) none _
    { width := 60, height := 40, px := fun _ _ => (255, 255, 255) } hout rfl

/-! ### Claim C5 -/

/-- Claim C5: for any draw primitive that only writes pixels inside the
bounding box of the drawn text (the guarantee of the image library), a
call on an existing image leaves every pixel outside that box with its
original value: the function itself performs exactly one draw call and
touches nothing else. -/
theorem C5_frame (os_name : String) (pathE : String → Bool)
    (tl : String → String → ℤ → ℚ)
    (drawT : Img → ℚ → ℤ → String → String → ℤ → Color → Img)
    (inBox : ℚ → ℤ → String → String → ℤ → ℤ → ℤ → Prop)
    (hloc : ∀ im x y t p fs c a b, ¬ inBox x y t p fs a b →
      (drawT im x y t p fs c).px a b = im.px a b)
    (fuel : ℕ) (i : Img) (text align : String) (y_pos : ℚ)
    (font_name : String) (font_size : ℤ) (min_width max_width : ℚ)
    (font_color : Color) (font_type : Option String) (out : RenderOut)
    (path : String) (a b : ℤ)
    (h : render os_name pathE tl drawT fuel (.img i) text align y_pos
      font_name font_size min_width max_width font_color font_type
      = some (.ok out))
    (hfp : fontPath os_name font_name (fontExt font_type) = .ok path)
    (hout : ¬ inBox out.x out.y text path out.font_size a b) :
    out.image.px a b = i.px a b := by
  obtain ⟨im2, path2, fs, x, hri, hfp2, hpe, hfl, hcx, houteq⟩ :=
    render_ok_inv _ _ _ _ _ _ _ _ _ _ _ _ _ _ _ _ h
  rw [show resolveImage (ImgInput.img i) = Except.ok i from rfl] at hri
  obtain rfl : i = im2 := Except.ok.inj hri
  rw [hfp] at hfp2
  obtain rfl : path = path2 := Except.ok.inj hfp2
  subst houteq
  exact hloc _ _ _ _ _ _ _ a b hout

/-- Concrete instance of claim C5: drawing with a one-pixel primitive on a
10 by 10 image with all pixels `(7, 7, 7)` leaves the pixel `(5, 5)`
unchanged. -/
theorem C5_witness :
    ∃ out, render "Linux" allExist tlLin drawDot 1 (ImgInput.img imC)
        "s" "left" 0 "Arial" 3 0 1 (9, 9, 9) none
        = some (Except.ok out)
      ∧ out.image.px 5 5 = imC.px 5 5 := by
  have hri : resolveImage (ImgInput.img imC) = Except.ok imC := rfl
  have hfp : fontPath "Linux" "Arial" (fontExt none)
      = Except.ok "/usr/share/fonts/truetype/Arial.ttf" := rfl
  have hfit : fitLoop (tlLin "/usr/share/fonts/truetype/Arial.ttf" "s")
      0 (imC.width : ℚ) (imC.height : ℤ) 1 3 = some 3 := rfl
  have hout : render "Linux" allExist tlLin drawDot 1 (ImgInput.img imC)
      "s" "left" 0 "Arial" 3 0 1 (9, 9, 9) none
      = some (Except.ok
          { image := drawDot imC 0 0 "s"
              "/usr/share/fonts/truetype/Arial.ttf" 3 (9, 9, 9),
            font_size := 3, text_width := 3, x := 0, y := 0 }) := by
    simp [render, hri, hfp, allExist, hfit, computeX, tlLin, ratTrunc]
  have hloc : ∀ im x y t p fs c a b, ¬ dotBox x y t p fs a b →
      (drawDot im x y t p fs c).px a b = im.px a b := by
    intro im x y t p fs c a b hn
    simp only [dotBox] at hn
    simp only [drawDot]
    rw [if_neg hn]
  have hbox : ¬ dotBox 0 0 "s" "/usr/share/fonts/truetype/Arial.ttf" 3 5 5 := by
    simp [dotBox]
  refine ⟨_, hout, ?_⟩
  exact C5_frame "Linux" allExist tlLin drawDot dotBox hloc 1 imC "s" "left"
    0 "Arial" 3 0 1 (9, 9, 9) none _ "/usr/share/fonts/truetype/Arial.ttf"
    5 5 hout rfl hbox

/-! ### Claim C6 -/

/-- Claim C6: the filename suffix depends only on `font_type` — `none`
gives ".ttf", italic gives "i.ttf", bold gives "bd.ttf", and every other
value (including the bold-plus-italic style "bold/italic") falls through
to ".ttf" — while the base directory depends only on the host OS. -/
theorem C6_font_suffix :
    fontExt none = ".ttf"
    ∧ fontExt (some "italic") = "i.ttf"
    ∧ fontExt (some "bold") = "bd.ttf"
    ∧ (∀ t : Option String, t ≠ some "italic" → t ≠ some "bold" →
        fontExt t = ".ttf")
    ∧ fontExt (some "bold/italic") = ".ttf"
    ∧ (∀ os_name font_name ext p,
        fontPath os_name font_name ext = .ok p →
        ∃ d, fontBaseDir os_name = some d ∧ p = d ++ font_name ++ ext) := by
  refine ⟨rfl, rfl, rfl, ?_, rfl, ?_⟩
  · intro t h1 h2
    unfold fontExt
    rw [if_neg h1, if_neg h2]
  · intro os_name font_name ext p h
    unfold fontPath at h
    split at h
    · next d hb => exact ⟨d, hb, (Except.ok.inj h).symm⟩
    · exact Except.noConfusion h

/-- Concrete instance of claim C6: an unrecognized style string falls
through to the plain ".ttf" suffix. -/
theorem C6_witness : fontExt (some "oblique") = ".ttf" :=
  C6_font_suffix.2.2.2.1 (some "oblique") (by decide) (by decide)

/-! ### Claim C8 -/

/-- Claim C8: source resolution is by kind — a `(width, height)` tuple
yields a fresh RGB canvas of exactly that size with every pixel white
`(255, 255, 255)` before drawing; a pixel buffer goes through
`Image.fromarray` keeping its size and pixels; an existing image is used
directly, and the returned image is exactly the draw primitive applied to
that same image (no copy is made). -/
theorem C8_source_resolution :
    (∀ w h, resolveImage (.tup w h)
        = .ok { width := w, height := h, px := fun _ _ => (255, 255, 255) })
    ∧ (∀ a, resolveImage (.arr a) = .ok (imageFromArray a))
    ∧ (∀ i, resolveImage (.img i) = .ok i)
    ∧ (∀ (os_name : String) (pathE : String → Bool)
        (tl : String → String → ℤ → ℚ)
        (drawT : Img → ℚ → ℤ → String → String → ℤ → Color → Img)
        (fuel : ℕ) (i : Img) (text align : String) (y_pos : ℚ)
        (font_name : String) (font_size : ℤ) (min_width max_width : ℚ)
        (font_color : Color) (font_type : Option String) (out : RenderOut),
        render os_name pathE tl drawT fuel (.img i) text align y_pos
            font_name font_size min_width max_width font_color font_type
          = some (.ok out) →
        ∃ path fs, out.image = drawT i out.x out.y text path fs font_color) := by
  refine ⟨fun w h => rfl, fun a => rfl, fun i => rfl, ?_⟩
  intro os_name pathE tl drawT fuel i text align y_pos font_name font_size
    min_width max_width font_color font_type out h
  obtain ⟨im2, path, fs, x, hri, hfp, hpe, hfl, hcx, hout⟩ :=
    render_ok_inv _ _ _ _ _ _ _ _ _ _ _ _ _ _ _ _ h
  rw [show resolveImage (ImgInput.img i) = Except.ok i from rfl] at hri
  obtain rfl : i = im2 := Except.ok.inj hri
  subst hout
  exact ⟨path, fs, rfl⟩

/-- Concrete instance of claim C8: a run on an existing image returns that
image with exactly one application of the draw primitive. -/
theorem C8_witness :
    ∃ out path fs, render "Linux" allExist tlLin drawNop 1
        (ImgInput.img imC) "s" "left" 0 "Arial" 3 0 1 (0, 0, 0) none
        = some (Except.ok out)
      ∧ out.image = drawNop imC out.x out.y "s" path fs (0, 0, 0) := by
  have hri : resolveImage (ImgInput.img imC) = Except.ok imC := rfl
  have hfp : fontPath "Linux" "Arial" (fontExt none)
      = Except.ok "/usr/share/fonts/truetype/Arial.ttf" := rfl
  have hfit : fitLoop (tlLin "/usr/share/fonts/truetype/Arial.ttf" "s")
      0 (imC.width : ℚ) (imC.height : ℤ) 1 3 = some 3 := rfl
  have hout : render "Linux" allExist tlLin drawNop 1 (ImgInput.img imC)
      "s" "left" 0 "Arial" 3 0 1 (0, 0, 0) none
      = some (Except.ok
          { image := drawNop imC 0 0 "s"
              "/usr/share/fonts/truetype/Arial.ttf" 3 (0, 0, 0),
            font_size := 3, text_width := 3, x := 0, y := 0 }) := by
    simp [render, hri, hfp, allExist, hfit, computeX, tlLin, ratTrunc]
  obtain ⟨path, fs, himg⟩ := C8_source_resolution.2.2.2 "Linux" allExist
    tlLin drawNop 1 imC "s" "left" 0 "Arial" 3 0 1 (0, 0, 0) none _ hout
  exact ⟨_, path, fs, hout, himg⟩

/-! ### Claim C9 -/

/-- Claim C9: the search has no lower bound on the font size.  With a text
that measures five pixels wide at every size and a one-pixel width cap,
the loop walks from size `1` down through `0` and `-1` to `-2` and keeps
going; and in full generality a too-wide measurement at any size below the
image height — zero and negative sizes included — decrements by one with
no clamp or rejection, the measurement being taken again at the new
non-positive size. -/
theorem C9_no_lower_bound :
    (∀ n, fitLoop tlWide 0 1 500 (n + 3) 1 = fitLoop tlWide 0 1 500 n (-2))
    ∧ (∀ (tl : ℤ → ℚ) (smin smax : ℚ) (height fs : ℤ) (n : ℕ),
        ¬ tl fs < smin → smax < tl fs → fs < height →
        fitLoop tl smin smax height (n + 1) fs
          = fitLoop tl smin smax height n (fs - 1)) := by
  constructor
  · intro n
    show fitLoop tlWide 0 1 500 ((n + 2) + 1) 1 = fitLoop tlWide 0 1 500 n (-2)
    rw [fitLoop_step_down tlWide 0 1 500 1 (n + 2) (by norm_num [tlWide])
      (by norm_num [tlWide]) (by norm_num)]
    norm_num
    show fitLoop tlWide 0 1 500 ((n + 1) + 1) 0 = fitLoop tlWide 0 1 500 n (-2)
    rw [fitLoop_step_down tlWide 0 1 500 0 (n + 1) (by norm_num [tlWide])
      (by norm_num [tlWide]) (by norm_num)]
    norm_num
    show fitLoop tlWide 0 1 500 (n + 1) (-1) = fitLoop tlWide 0 1 500 n (-2)
    rw [fitLoop_step_down tlWide 0 1 500 (-1) n (by norm_num [tlWide])
      (by norm_num [tlWide]) (by norm_num)]
    norm_num
  · exact fun tl smin smax height fs n h1 h2 h3 =>
      fitLoop_step_down tl smin smax height fs n h1 h2 h3

/-- Concrete instance of claim C9: at the already negative size `-5` the
too-wide branch still decrements to `-6`, with no clamp. -/
theorem C9_witness :
    fitLoop tlWide 0 1 500 1 (-5) = fitLoop tlWide 0 1 500 0 (-6) := by
  have h := C9_no_lower_bound.2 tlWide 0 1 500 (-5) 0
    (by norm_num [tlWide]) (by norm_num [tlWide]) (by norm_num)
  norm_num at h
  exact h

/-! ### Claim C10 -/

/-- Claim C10: `y_pos` is never validated: the outcome classification of a
call (divergence, raised error, or normal return) is entirely independent
of `y_pos`, and a normal return computes `y = int(y_pos * (H - font_size))`
with no range check — a concrete run with `y_pos = -3` places the text at
a negative offset, outside the image. -/
theorem C10_ypos_unvalidated :
    (∀ (os_name : String) (pathE : String → Bool)
        (tl : String → String → ℤ → ℚ)
        (drawT : Img → ℚ → ℤ → String → String → ℤ → Color → Img)
        (fuel : ℕ) (img_input : ImgInput) (text align : String)
        (y1 y2 : ℚ) (font_name : String) (font_size : ℤ)
        (min_width max_width : ℚ) (font_color : Color)
        (font_type : Option String),
      renderStatus (render os_name pathE tl drawT fuel img_input text align
          y1 font_name font_size min_width max_width font_color font_type)
        = renderStatus (render os_name pathE tl drawT fuel img_input text
            align y2 font_name font_size min_width max_width font_color
            font_type))
    ∧ (∃ out, render "Linux" allExist tlLin drawNop 1 (ImgInput.tup 100 50)
        "t" "left" (-3) "Arial" 20 0 1 (0, 0, 0) none
        = some (Except.ok out)
      ∧ out.y < 0) := by
  constructor
  · intro os_name pathE tl drawT fuel img_input text align y1 y2 font_name
      font_size min_width max_width font_color font_type
    rw [renderStatus_eq, renderStatus_eq]
  · have hri : resolveImage (ImgInput.tup 100 50)
        = Except.ok { width := 100, height := 50,
                      px := fun _ _ => (255, 255, 255) } := rfl
    have hfp : fontPath "Linux" "Arial" (fontExt none)
        = Except.ok "/usr/share/fonts/truetype/Arial.ttf" := rfl
    have hfit : fitLoop (tlLin "/usr/share/fonts/truetype/Arial.ttf" "t")
        0 100 50 1 20 = some 20 := rfl
    have hout : render "Linux" allExist tlLin drawNop 1
        (ImgInput.tup 100 50) "t" "left" (-3) "Arial" 20 0 1 (0, 0, 0) none
        = some (Except.ok
            { image := { width := 100, height := 50,
                         px := fun _ _ => (255, 255, 255) },
              font_size := 20, text_width := 20, x := 0, y := -90 }) := by
      simp [render, hri, hfp, allExist, hfit, computeX, tlLin, drawNop,
        ratTrunc]
      norm_num
      rw [show ((-90 : ℚ)) = ((-90 : ℤ) : ℚ) from by norm_num,
        Int.ceil_intCast]
    exact ⟨_, hout, by norm_num⟩
